import Mathlib

/-!
# go-example-api: Open Graph preview service

A shallow embedding of `main.go` (FetchHTML, ParseTagsFromHTML, previewHandler,
CacheHandler) together with the parts of its collaborators that the handlers
observe: `encoding/json` for the `OpenGraphTags` record, `unicode/utf8`, the
redis key/value store with expiry, the HTTP transport and the goquery
selection primitives.

Go strings are byte sequences; they are embedded as lists of naturals, every
byte being a natural below 256.
-/

namespace GoExampleApi

/-! ## Go strings -/

/-- A Go `string` / `[]byte`: a sequence of bytes (naturals below 256). -/
abbrev GoString := List Nat

/-- The bytes of an ASCII literal. -/
def str (x : String) : GoString := x.toList.map Char.toNat

/-! ## unicode/utf8 -/

/-- Constant `utf8.RuneError`, the replacement character U+FFFD. -/
def RuneError : Nat := 0xFFFD

/-- Constant `utf8.RuneSelf`: bytes below it are single-byte runes. -/
def RuneSelf : Nat := 0x80

/-- Table `utf8.first` joined with `utf8.acceptRanges`: for a leading byte of a
multi-byte sequence, the size of the sequence and the accepted range of the
second byte; `none` for the entries marked `xx` (invalid leading bytes). -/
def first (s0 : Nat) : Option (Nat × Nat × Nat) :=
  if 0xC2 ≤ s0 ∧ s0 ≤ 0xDF then some (2, 0x80, 0xBF)
  else if s0 = 0xE0 then some (3, 0xA0, 0xBF)
  else if 0xE1 ≤ s0 ∧ s0 ≤ 0xEC then some (3, 0x80, 0xBF)
  else if s0 = 0xED then some (3, 0x80, 0x9F)
  else if s0 = 0xEE ∨ s0 = 0xEF then some (3, 0x80, 0xBF)
  else if s0 = 0xF0 then some (4, 0x90, 0xBF)
  else if 0xF1 ≤ s0 ∧ s0 ≤ 0xF3 then some (4, 0x80, 0xBF)
  else if s0 = 0xF4 then some (4, 0x80, 0x8F)
  else none

/-- Function `utf8.DecodeRune`: the first rune of `s` and its width in bytes;
`(RuneError, 1)` on an invalid encoding, `(RuneError, 0)` on empty input.
The masks and shifts of the Go code are written arithmetically:
`s0 & 0x1F` is `s0 % 32`, `x << 6` is `x * 64`, and `|` of disjoint bit
fields is `+`. -/
def DecodeRune (s : GoString) : Nat × Nat :=
  match s with
  | [] => (RuneError, 0)
  | s0 :: t =>
    if s0 < RuneSelf then (s0, 1) else
    match first s0 with
    | none => (RuneError, 1)
    | some (sz, lo, hi) =>
      if s.length < sz then (RuneError, 1) else
      match t with
      | [] => (RuneError, 1)
      | s1 :: t1 =>
        if s1 < lo ∨ hi < s1 then (RuneError, 1) else
        if sz ≤ 2 then ((s0 % 32) * 64 + s1 % 64, 2) else
        match t1 with
        | [] => (RuneError, 1)
        | s2 :: t2 =>
          if s2 < 0x80 ∨ 0xBF < s2 then (RuneError, 1) else
          if sz ≤ 3 then ((s0 % 16) * 4096 + (s1 % 64) * 64 + s2 % 64, 3) else
          match t2 with
          | [] => (RuneError, 1)
          | s3 :: _ =>
            if s3 < 0x80 ∨ 0xBF < s3 then (RuneError, 1) else
            ((s0 % 8) * 262144 + (s1 % 64) * 4096 + (s2 % 64) * 64 + s3 % 64, 4)

/-- Function `utf8.EncodeRune`: the UTF-8 encoding of a rune; surrogates and
runes above U+10FFFF are encoded as U+FFFD. -/
def EncodeRune (r : Nat) : GoString :=
  if r ≤ 0x7F then [r]
  else if r ≤ 0x7FF then [0xC0 + r / 64, 0x80 + r % 64]
  else if r > 0x10FFFF ∨ (0xD800 ≤ r ∧ r ≤ 0xDFFF) then [0xEF, 0xBF, 0xBD]
  else if r ≤ 0xFFFF then [0xE0 + r / 4096, 0x80 + (r / 64) % 64, 0x80 + r % 64]
  else [0xF0 + r / 262144, 0x80 + (r / 4096) % 64, 0x80 + (r / 64) % 64, 0x80 + r % 64]

/-- Function `utf8.Valid`, as a loop over the runes of `s`; the first argument
bounds the number of iterations and is the length of the input. -/
def validLoop : Nat → GoString → Bool
  | _, [] => true
  | 0, _ :: _ => false
  | fuel + 1, b :: rest =>
    let d := DecodeRune (b :: rest)
    if d.1 = RuneError ∧ d.2 = 1 then false
    else validLoop fuel ((b :: rest).drop d.2)

/-- Predicate `utf8.Valid`: `s` consists entirely of valid UTF-8 encoded runes. -/
def Valid (s : GoString) : Bool := validLoop s.length s

/-- The loop of `bytes.ToValidUTF8` with replacement U+FFFD, without run collapsing: every
invalid byte is replaced by the encoding of U+FFFD, valid runes are kept. -/
def coerceLoop : Nat → GoString → GoString
  | _, [] => []
  | 0, _ :: _ => []
  | fuel + 1, b :: rest =>
    let d := DecodeRune (b :: rest)
    if d.1 = RuneError ∧ d.2 = 1 then [0xEF, 0xBF, 0xBD] ++ coerceLoop fuel rest
    else (b :: rest).take d.2 ++ coerceLoop fuel ((b :: rest).drop d.2)

/-- A string coerced to valid UTF-8, each invalid byte replaced by U+FFFD. -/
def coerceUTF8 (s : GoString) : GoString := coerceLoop s.length s

/-! ## The record -/

/-- Struct `OpenGraphTags` with its JSON field names `title`, `description`,
`image`, `url`. -/
structure OpenGraphTags where
  Title : GoString
  Desc : GoString
  Img : GoString
  URL : GoString
  deriving DecidableEq, Repr

/-! ## encoding/json: encoder -/

/-- Table `htmlSafeSet`: the ASCII bytes that are written unescaped when HTML
escaping is on (the setting `json.Marshal` uses): every byte from space to DEL
except the double quote, ampersand, angle brackets and backslash. -/
def htmlSafeSet (b : Nat) : Bool :=
  decide (0x20 ≤ b ∧ b ≤ 0x7F ∧ b ≠ 0x22 ∧ b ≠ 0x26 ∧ b ≠ 0x3C ∧ b ≠ 0x3E ∧ b ≠ 0x5C)

/-- Digit `hex[n]` of the table `"0123456789abcdef"`. -/
def hex (n : Nat) : Nat := if n < 10 then 0x30 + n else 0x61 + (n - 10)

/-- The `switch b` of `appendString` for an ASCII byte outside `htmlSafeSet`. -/
def escapeByte (b : Nat) : GoString :=
  if b = 0x5C ∨ b = 0x22 then [0x5C, b]
  else if b = 0x08 then str "\\b"
  else if b = 0x0C then str "\\f"
  else if b = 0x0A then str "\\n"
  else if b = 0x0D then str "\\r"
  else if b = 0x09 then str "\\t"
  else str "\\u00" ++ [hex (b / 16), hex (b % 16)]

/-- The loop of `appendString` (with `escapeHTML` on) over the source bytes:
what is written between the two quotes. The first argument bounds the number
of iterations; every iteration consumes at least one byte. -/
def appendStringLoop : Nat → GoString → GoString
  | _, [] => []
  | 0, _ :: _ => []
  | fuel + 1, b :: rest =>
    if b < RuneSelf then
      (if htmlSafeSet b then [b] else escapeByte b) ++ appendStringLoop fuel rest
    else
      let d := DecodeRune (b :: rest)
      if d.1 = RuneError ∧ d.2 = 1 then
        str "\\ufffd" ++ appendStringLoop fuel rest
      else if d.1 = 0x2028 ∨ d.1 = 0x2029 then
        str "\\u202" ++ [hex (d.1 % 16)] ++ appendStringLoop fuel ((b :: rest).drop d.2)
      else
        (b :: rest).take d.2 ++ appendStringLoop fuel ((b :: rest).drop d.2)

/-- Function `appendString`: a Go string as a quoted JSON string literal. -/
def appendString (src : GoString) : GoString :=
  [0x22] ++ appendStringLoop src.length src ++ [0x22]

/-- Function `json.Marshal` at a non-nil `*OpenGraphTags`: the four fields in
declaration order under their tag names. It never fails for this type. -/
def Marshal (t : OpenGraphTags) : GoString :=
  str "\x7b\"title\":" ++ appendString t.Title ++
  str ",\"description\":" ++ appendString t.Desc ++
  str ",\"image\":" ++ appendString t.Img ++
  str ",\"url\":" ++ appendString t.URL ++ str "\x7d"

/-- Function `json.Marshal` at a `*OpenGraphTags` that may be nil: a nil
pointer encodes as the JSON value `null`. -/
def MarshalPtr : Option OpenGraphTags → GoString
  | none => str "null"
  | some t => Marshal t

/-- Function `json.Marshal` at a `gin.H` whose values are strings, the entries
given in key order (the encoder writes map entries sorted by key). -/
def MarshalH (h : List (GoString × GoString)) : GoString :=
  str "\x7b" ++
  List.intercalate (str ",")
    (h.map (fun kv => appendString kv.1 ++ str ":" ++ appendString kv.2)) ++
  str "\x7d"

/-! ## encoding/json: scanner and decoder

`json.Unmarshal` first runs the scanner over the whole input (`checkValid`)
and then decodes. The two passes are embedded as one recursive-descent pass
that fails on exactly the inputs the scanner rejects and otherwise yields the
value tree the decoder walks. -/

/-- A JSON value as the decoder sees it; numbers carry no payload because no
field of `OpenGraphTags` accepts one. -/
inductive JValue where
  | null : JValue
  | bool (b : Bool) : JValue
  | number : JValue
  | string (s : GoString) : JValue
  | array (items : List JValue) : JValue
  | object (members : List (GoString × JValue)) : JValue

/-- Function `isSpace` of the scanner. -/
def isSpace (c : Nat) : Bool := decide (c = 0x20 ∨ c = 0x09 ∨ c = 0x0D ∨ c = 0x0A)

/-- Skips JSON white space. -/
def skipWS (s : GoString) : GoString := s.dropWhile isSpace

/-- Value of a hexadecimal digit, as in `getu4`. -/
def hexVal (c : Nat) : Option Nat :=
  if 0x30 ≤ c ∧ c ≤ 0x39 then some (c - 0x30)
  else if 0x61 ≤ c ∧ c ≤ 0x66 then some (c - 0x61 + 10)
  else if 0x41 ≤ c ∧ c ≤ 0x46 then some (c - 0x41 + 10)
  else none

/-- Function `getu4`: the rune of a leading `\uXXXX` escape, `none` (Go: -1)
when the input does not start with one. -/
def getu4 (s : GoString) : Option Nat :=
  match s with
  | b :: u :: c1 :: c2 :: c3 :: c4 :: _ =>
    if b = 0x5C ∧ u = 0x75 then
      match hexVal c1, hexVal c2, hexVal c3, hexVal c4 with
      | some h1, some h2, some h3, some h4 => some (h1 * 4096 + h2 * 256 + h3 * 16 + h4)
      | _, _, _, _ => none
    else none
  | _ => none

/-- Function `utf16.IsSurrogate`. -/
def IsSurrogate (r : Nat) : Bool := decide (0xD800 ≤ r ∧ r < 0xE000)

/-- Function `utf16.DecodeRune`: the rune of a surrogate pair, U+FFFD when the
pair is not a high surrogate followed by a low one. -/
def utf16DecodeRune (r1 r2 : Nat) : Nat :=
  if 0xD800 ≤ r1 ∧ r1 < 0xDC00 ∧ 0xDC00 ≤ r2 ∧ r2 < 0xE000 then
    (r1 - 0xD800) * 1024 + (r2 - 0xDC00) + 0x10000
  else RuneError

/-- The single-character escapes accepted by the scanner after a backslash. -/
def simpleEscape (e : Nat) : Option Nat :=
  if e = 0x22 ∨ e = 0x5C ∨ e = 0x2F then some e
  else if e = 0x62 then some 0x08
  else if e = 0x66 then some 0x0C
  else if e = 0x6E then some 0x0A
  else if e = 0x72 then some 0x0D
  else if e = 0x74 then some 0x09
  else none

/-- Prefixes the decoded bytes of one step to the result of the remaining
steps. -/
def emit (pre : GoString) (r : Option (GoString × GoString)) : Option (GoString × GoString) :=
  r.map (fun p => (pre ++ p.1, p.2))

/-- A string literal after its opening quote: the scanner states
`stateInString`, `stateInStringEsc`, `stateInStringEscU...` together with the
loop of `unquoteBytes`. Yields the decoded bytes and the input after the
closing quote; `none` where the scanner reports a syntax error. The first
argument bounds the number of iterations; every iteration consumes input. -/
def unquoteLoop : Nat → GoString → Option (GoString × GoString)
  | 0, _ => none
  | _ + 1, [] => none
  | fuel + 1, c :: rest =>
    if c = 0x22 then some ([], rest)
    else if c = 0x5C then
      match rest with
      | [] => none
      | e :: rest1 =>
        if e = 0x75 then
          match getu4 (c :: rest) with
          | none => none
          | some rr =>
            if IsSurrogate rr then
              match getu4 (rest1.drop 4) with
              | none => emit (EncodeRune RuneError) (unquoteLoop fuel (rest1.drop 4))
              | some rr1 =>
                if utf16DecodeRune rr rr1 ≠ RuneError then
                  emit (EncodeRune (utf16DecodeRune rr rr1)) (unquoteLoop fuel (rest1.drop 10))
                else emit (EncodeRune RuneError) (unquoteLoop fuel (rest1.drop 4))
            else emit (EncodeRune rr) (unquoteLoop fuel (rest1.drop 4))
        else
          match simpleEscape e with
          | none => none
          | some b => emit [b] (unquoteLoop fuel rest1)
    else if c < 0x20 then none
    else if c < RuneSelf then emit [c] (unquoteLoop fuel rest)
    else
      let d := DecodeRune (c :: rest)
      emit (EncodeRune d.1) (unquoteLoop fuel ((c :: rest).drop d.2))

/-- A string literal after its opening quote. -/
def parseString (s : GoString) : Option (GoString × GoString) := unquoteLoop s.length s

/-- Digit test of the scanner. -/
def isDigit (c : Nat) : Bool := decide (0x30 ≤ c ∧ c ≤ 0x39)

/-- Scanner states `stateE`, `stateESign`, `stateE0`: an optional exponent. -/
def scanExp (s : GoString) : Option GoString :=
  match s with
  | e :: r =>
    if e = 0x65 ∨ e = 0x45 then
      match r with
      | g :: r1 =>
        if g = 0x2B ∨ g = 0x2D then
          match r1 with
          | d :: r2 => if isDigit d then some (r2.dropWhile isDigit) else none
          | [] => none
        else if isDigit g then some (r1.dropWhile isDigit) else none
      | [] => none
    else some s
  | [] => some s

/-- Scanner states `stateDot`, `stateDot0`: an optional fraction, then the
exponent. -/
def scanFrac (s : GoString) : Option GoString :=
  match s with
  | p :: r =>
    if p = 0x2E then
      match r with
      | d :: r1 => if isDigit d then scanExp (r1.dropWhile isDigit) else none
      | [] => none
    else scanExp s
  | [] => some s

/-- Scanner states `stateNeg`, `state0`, `state1`: a number literal; yields the
input after it. -/
def scanNumber (s : GoString) : Option GoString :=
  let s1 := match s with
    | c :: r => if c = 0x2D then r else s
    | [] => s
  match s1 with
  | c :: r =>
    if c = 0x30 then scanFrac r
    else if 0x31 ≤ c ∧ c ≤ 0x39 then scanFrac (r.dropWhile isDigit)
    else none
  | [] => none

/-- Matches the letters of `true`, `false` or `null`. -/
def scanLiteral (lit : GoString) (s : GoString) : Option GoString :=
  if s.take lit.length = lit then some (s.drop lit.length) else none

/-- Constant `maxNestingDepth` of the scanner. -/
def maxNestingDepth : Nat := 10000

mutual
/-- One JSON value at the head of the input (no leading white space), at the
given nesting depth. Yields the value and the input after it. The first
argument bounds the number of nested calls; every call consumes input. -/
def parseValue : Nat → Nat → GoString → Option (JValue × GoString)
  | 0, _, _ => none
  | _ + 1, _, [] => none
  | fuel + 1, depth, c :: rest =>
    if c = 0x7B then
      if maxNestingDepth < depth + 1 then none
      else
        match skipWS rest with
        | [] => none
        | k :: rest1 =>
          if k = 0x7D then some (JValue.object [], rest1)
          else (parseMembers fuel (depth + 1) (k :: rest1)).map
            (fun r => (JValue.object r.1, r.2))
    else if c = 0x5B then
      if maxNestingDepth < depth + 1 then none
      else
        match skipWS rest with
        | [] => none
        | k :: rest1 =>
          if k = 0x5D then some (JValue.array [], rest1)
          else (parseElements fuel (depth + 1) (k :: rest1)).map
            (fun r => (JValue.array r.1, r.2))
    else if c = 0x22 then (parseString rest).map (fun r => (JValue.string r.1, r.2))
    else if c = 0x2D ∨ isDigit c then (scanNumber (c :: rest)).map (fun r => (JValue.number, r))
    else if c = 0x74 then (scanLiteral (str "true") (c :: rest)).map (fun r => (JValue.bool true, r))
    else if c = 0x66 then (scanLiteral (str "false") (c :: rest)).map (fun r => (JValue.bool false, r))
    else if c = 0x6E then (scanLiteral (str "null") (c :: rest)).map (fun r => (JValue.null, r))
    else none
/-- The members of an object from a key on, up to and including the closing
brace. -/
def parseMembers : Nat → Nat → GoString → Option (List (GoString × JValue) × GoString)
  | 0, _, _ => none
  | _ + 1, _, [] => none
  | fuel + 1, depth, q :: rest =>
    if q = 0x22 then
      match parseString rest with
      | none => none
      | some (key, r1) =>
        match skipWS r1 with
        | [] => none
        | colon :: r2 =>
          if colon = 0x3A then
            match parseValue fuel depth (skipWS r2) with
            | none => none
            | some (v, r3) =>
              match skipWS r3 with
              | [] => none
              | sep :: r4 =>
                if sep = 0x2C then
                  (parseMembers fuel depth (skipWS r4)).map (fun r => ((key, v) :: r.1, r.2))
                else if sep = 0x7D then some ([(key, v)], r4)
                else none
          else none
    else none
/-- The elements of an array from a value on, up to and including the closing
bracket. -/
def parseElements : Nat → Nat → GoString → Option (List JValue × GoString)
  | 0, _, _ => none
  | fuel + 1, depth, s =>
    match parseValue fuel depth s with
    | none => none
    | some (v, r1) =>
      match skipWS r1 with
      | [] => none
      | sep :: r2 =>
        if sep = 0x2C then
          (parseElements fuel depth (skipWS r2)).map (fun r => (v :: r.1, r.2))
        else if sep = 0x5D then some ([v], r2)
        else none
end

/-- Function `checkValid` followed by the walk of the decoder: the value tree
of a complete JSON text, `none` on a syntax error. Every nested call consumes
at least one byte, so the bound `data.length + 1` is never reached. -/
def parseJSON (data : GoString) : Option JValue :=
  match parseValue (data.length + 1) 0 (skipWS data) with
  | none => none
  | some (v, rest) => if skipWS rest = [] then some v else none

/-- The loop of `appendFoldedName`: ASCII letters are upper-cased and a
multi-byte rune is replaced by `foldRune` of it. Of the non-ASCII runes only
U+017F (long s) and U+212A (Kelvin sign) fold to an ASCII letter, `S` and `K`;
the others fold to non-ASCII runes, which no field name of `OpenGraphTags`
contains, and are kept as they are. -/
def foldLoop : Nat → GoString → GoString
  | _, [] => []
  | 0, _ :: _ => []
  | fuel + 1, c :: rest =>
    if c < RuneSelf then
      (if 0x61 ≤ c ∧ c ≤ 0x7A then c - 0x20 else c) :: foldLoop fuel rest
    else
      let d := DecodeRune (c :: rest)
      let r := if d.1 = 0x17F then 0x53 else if d.1 = 0x212A then 0x4B else d.1
      EncodeRune r ++ foldLoop fuel ((c :: rest).drop d.2)

/-- Function `foldName`. -/
def foldName (name : GoString) : GoString := foldLoop name.length name

/-- The four fields of `OpenGraphTags`. -/
inductive Field where
  | Title | Desc | Img | URL
  deriving DecidableEq, Repr

/-- Field lookup of `decodeState.object`: by exact name, else by folded name.
The four names have distinct folded forms, so the lookup is the folded one. -/
def findField (key : GoString) : Option Field :=
  if foldName key = foldName (str "title") then some Field.Title
  else if foldName key = foldName (str "description") then some Field.Desc
  else if foldName key = foldName (str "image") then some Field.Img
  else if foldName key = foldName (str "url") then some Field.URL
  else none

/-- Assignment `v.SetString` to the field. -/
def setField (f : Field) (v : GoString) (t : OpenGraphTags) : OpenGraphTags :=
  match f with
  | Field.Title => { t with Title := v }
  | Field.Desc => { t with Desc := v }
  | Field.Img => { t with Img := v }
  | Field.URL => { t with URL := v }

/-- One member in `decodeState.object` for the struct: a key that names no
field is skipped; a string is stored; `null` leaves a string field as it is;
any other value records an `UnmarshalTypeError` (the flag) and decoding goes
on. -/
def storeMember (acc : OpenGraphTags × Bool) (m : GoString × JValue) : OpenGraphTags × Bool :=
  match findField m.1 with
  | none => acc
  | some f =>
    match m.2 with
    | JValue.string v => (setField f v acc.1, acc.2)
    | JValue.null => acc
    | _ => (acc.1, true)

/-- The errors of `json.Unmarshal`. -/
inductive UnmarshalError where
  | SyntaxError
  | UnmarshalTypeError
  deriving DecidableEq, Repr

/-- Function `json.Unmarshal(data, &tags)` for `tags : OpenGraphTags` holding
`t0`: the contents of `tags` afterwards when the error is nil, the error
otherwise (the callers drop `tags` on an error). -/
def Unmarshal (data : GoString) (t0 : OpenGraphTags) : Except UnmarshalError OpenGraphTags :=
  match parseJSON data with
  | none => Except.error UnmarshalError.SyntaxError
  | some JValue.null => Except.ok t0
  | some (JValue.object ms) =>
    let r := ms.foldl storeMember (t0, false)
    if r.2 then Except.error UnmarshalError.UnmarshalTypeError else Except.ok r.1
  | some _ => Except.error UnmarshalError.UnmarshalTypeError

/-- The zero value of `OpenGraphTags` (`var tags OpenGraphTags`). -/
def zeroTags : OpenGraphTags := ⟨[], [], [], []⟩

/-! ## goquery: documents and selections -/

/-- An attribute of an element (`html.Attribute`). -/
structure Attribute where
  Key : GoString
  Val : GoString
  deriving DecidableEq, Repr

/-- An element node (`html.Node` of type `ElementNode`): its tag name and its
attributes in source order. -/
structure Node where
  Data : GoString
  Attr : List Attribute
  deriving DecidableEq, Repr

/-- A parsed document (`*goquery.Document`): its element nodes in document
order. `Find` from the root visits every element, so the tree shape is not
kept. -/
abbrev Document := List Node

/-- The compiled selector `meta[property='val']`: an element named `meta` one
of whose attributes has key `property` and value `val`. -/
def matchMetaProperty (val : GoString) (n : Node) : Bool :=
  decide (n.Data = str "meta") && n.Attr.any (fun a => decide (a.Key = str "property" ∧ a.Val = val))

/-- Call `doc.Find("meta[property='val']")`: the matching elements in document
order. -/
def Find (doc : Document) (val : GoString) : List Node := doc.filter (matchMetaProperty val)

/-- Method `Selection.AttrOr`: the value of the named attribute of the first
node of the selection, the default when the selection is empty or the node
has no such attribute. -/
def AttrOr (sel : List Node) (name : GoString) (defaultValue : GoString) : GoString :=
  match sel with
  | [] => defaultValue
  | n :: _ =>
    match n.Attr.find? (fun a => decide (a.Key = name)) with
    | some a => a.Val
    | none => defaultValue

/-- Function `ParseTagsFromHTML`. -/
def ParseTagsFromHTML (doc : Document) : OpenGraphTags :=
  { Title := AttrOr (Find doc (str "og:title")) (str "content") []
    Desc := AttrOr (Find doc (str "og:description")) (str "content") []
    Img := AttrOr (Find doc (str "og:image")) (str "content") []
    URL := AttrOr (Find doc (str "og:url")) (str "content") [] }

/-! ## The world: HTTP transport, HTML parser, redis -/

/-- An HTTP response as `FetchHTML` reads it. -/
structure Response where
  StatusCode : Nat
  Status : GoString
  Body : GoString
  deriving DecidableEq, Repr

/-- An entry of the redis store with its expiry time in seconds. -/
structure Entry where
  key : GoString
  value : GoString
  expireAt : Nat
  deriving DecidableEq, Repr

/-- The calls made to the collaborators, in order. -/
inductive Event where
  | Get (key : GoString)
  | HttpGet (url : GoString)
  | Set (key : GoString) (value : GoString) (ttl : Nat)
  deriving DecidableEq, Repr

/-- Everything outside the process that the handlers touch: the contents of
the redis store and the clock in seconds, whether the store access of a `Get`
or of a `Set` fails (connectivity), what `http.Get` answers for a URL, what
`goquery.NewDocumentFromReader` makes of a body, and the record of calls. -/
structure World where
  entries : List Entry
  now : Nat
  getFault : Option GoString
  setFault : Option GoString
  httpGet : GoString → Except GoString Response
  newDocument : GoString → Except GoString Document
  log : List Event

/-- The outcome of `redisClient.Get(key).Result()`: a value with a nil error,
the error `redis.Nil` (key not found), or another error. -/
inductive GetResult where
  | Val (v : GoString)
  | Nil
  | Err (cause : GoString)
  deriving DecidableEq, Repr

/-- The unexpired entry stored under the key. -/
def lookup (w : World) (key : GoString) : Option Entry :=
  w.entries.find? (fun e => decide (e.key = key ∧ w.now < e.expireAt))

/-- Call `redisClient.Get(key).Result()`. -/
def redisGet (key : GoString) (w : World) : GetResult × World :=
  let w1 := { w with log := w.log ++ [Event.Get key] }
  match w.getFault with
  | some cause => (GetResult.Err cause, w1)
  | none =>
    match lookup w key with
    | some e => (GetResult.Val e.value, w1)
    | none => (GetResult.Nil, w1)

/-- Call `redisClient.Set(key, value, ttl).Err()` with `ttl` in seconds: on
success the entry replaces any entry of the key and expires `ttl` seconds from
now; on a failure the store is unchanged. -/
def redisSet (key value : GoString) (ttl : Nat) (w : World) : Option GoString × World :=
  let w1 := { w with log := w.log ++ [Event.Set key value ttl] }
  match w.setFault with
  | some cause => (some cause, w1)
  | none =>
    (none, { w1 with
      entries := ⟨key, value, w.now + ttl⟩ :: w.entries.filter (fun e => decide (e.key ≠ key)) })

/-- Constant `time.Hour` in seconds. -/
def Hour : Nat := 3600

/-- Constant `http.StatusOK`. -/
def StatusOK : Nat := 200

/-- Constant `http.StatusBadRequest`. -/
def StatusBadRequest : Nat := 400

/-! ## main.go -/

/-- The three errors `FetchHTML` builds with `fmt.Errorf`:
"failed to fetch url", "status code error" and "failed to parse html". -/
inductive FetchError where
  | get (cause : GoString)
  | status (code : Nat) (status : GoString)
  | parse (cause : GoString)
  deriving DecidableEq, Repr

/-- Function `FetchHTML`. -/
def FetchHTML (url : GoString) (w : World) : Except FetchError Document × World :=
  let w1 := { w with log := w.log ++ [Event.HttpGet url] }
  match w.httpGet url with
  | Except.error err => (Except.error (FetchError.get err), w1)
  | Except.ok resp =>
    if resp.StatusCode ≠ StatusOK then
      (Except.error (FetchError.status resp.StatusCode resp.Status), w1)
    else
      match w.newDocument resp.Body with
      | Except.error err => (Except.error (FetchError.parse err), w1)
      | Except.ok doc => (Except.ok doc, w1)

/-- The three errors `CacheHandler` builds with `fmt.Errorf`:
"failed to fetch html", "failed to get data from cache" and
"failed to unmarshal cached data". -/
inductive HandlerError where
  | fetch (e : FetchError)
  | cache (cause : GoString)
  | unmarshal (e : UnmarshalError)
  deriving DecidableEq, Repr

/-- The tail of `CacheHandler` from `var tags OpenGraphTags` on: unmarshal
`cachedData` and return `&tags`, or `nil` and the wrapped error. -/
def unmarshalCached (cachedData : GoString) (w : World) :
    Except HandlerError OpenGraphTags × World :=
  match Unmarshal cachedData zeroTags with
  | Except.error e => (Except.error (HandlerError.unmarshal e), w)
  | Except.ok tags => (Except.ok tags, w)

/-- Function `CacheHandler`. The result `(&tags, nil)` is `Except.ok tags` and
`(nil, err)` is `Except.error err`. -/
def CacheHandler (url : GoString) (w : World) : Except HandlerError OpenGraphTags × World :=
  match redisGet url w with
  | (GetResult.Nil, w1) =>
    match FetchHTML url w1 with
    | (Except.error err, w2) => (Except.error (HandlerError.fetch err), w2)
    | (Except.ok doc, w2) =>
      let tags := ParseTagsFromHTML doc
      let jsonTags := Marshal tags
      let w3 := (redisSet url jsonTags Hour w2).2
      unmarshalCached jsonTags w3
  | (GetResult.Err err, w1) => (Except.error (HandlerError.cache err), w1)
  | (GetResult.Val cachedData, w1) => unmarshalCached cachedData w1

/-- What `ctx.JSON` wrote: the status code and the body. -/
structure Rendered where
  code : Nat
  body : GoString
  deriving DecidableEq, Repr

/-- Method `ctx.Query`: the first value of the key in the query string, the
empty string when the key is missing. -/
def Query (query : List (GoString × GoString)) (key : GoString) : GoString :=
  match query.find? (fun p => decide (p.1 = key)) with
  | some p => p.2
  | none => []

/-- The pointer `tags` that `CacheHandler` returned: nil on an error. -/
def tagsPtr (r : Except HandlerError OpenGraphTags) : Option OpenGraphTags :=
  match r with
  | Except.ok tags => some tags
  | Except.error _ => none

/-- Function `previewHandler` on a request with the given query string. -/
def previewHandler (query : List (GoString × GoString)) (w : World) : Rendered × World :=
  let url := Query query (str "url")
  if url = [] then
    (⟨StatusBadRequest, MarshalH [(str "error", str "url is required")]⟩, w)
  else
    let r := CacheHandler url w
    (⟨StatusOK, MarshalPtr (tagsPtr r.1)⟩, r.2)

/-! ## The specification's wording, for comparison -/

/-- The content of the first `meta` element in document order that has the
attribute `property` with the given name; empty when there is no such element
or it has no `content` attribute. -/
def firstMetaContent (doc : Document) (name : GoString) : GoString :=
  match doc.find? (fun n => decide (n.Data = str "meta" ∧
      ∃ a ∈ n.Attr, a.Key = str "property" ∧ a.Val = name)) with
  | none => []
  | some n =>
    match n.Attr.find? (fun a => decide (a.Key = str "content")) with
    | none => []
    | some a => a.Val

/-- A record whose four fields are coerced to valid UTF-8. -/
def coerceTags (t : OpenGraphTags) : OpenGraphTags :=
  ⟨coerceUTF8 t.Title, coerceUTF8 t.Desc, coerceUTF8 t.Img, coerceUTF8 t.URL⟩

/-- All four fields are valid UTF-8. -/
def ValidTags (t : OpenGraphTags) : Prop :=
  Valid t.Title = true ∧ Valid t.Desc = true ∧ Valid t.Img = true ∧ Valid t.URL = true

/-- Equality of results is decidable when it is for errors and values. -/
instance instDecidableEqExcept {ε α : Type} [DecidableEq ε] [DecidableEq α] :
    DecidableEq (Except ε α) := fun a b =>
  match a, b with
  | Except.ok x, Except.ok y =>
    if h : x = y then isTrue (by rw [h]) else isFalse (fun h2 => h (Except.ok.inj h2))
  | Except.error x, Except.error y =>
    if h : x = y then isTrue (by rw [h]) else isFalse (fun h2 => h (Except.error.inj h2))
  | Except.ok _, Except.error _ => isFalse (fun h => Except.noConfusion h)
  | Except.error _, Except.ok _ => isFalse (fun h => Except.noConfusion h)

/-- Validity of the four fields is decidable. -/
instance instDecidableValidTags (t : OpenGraphTags) : Decidable (ValidTags t) := by
  unfold ValidTags
  exact inferInstance

/-! ## Concrete inputs -/

/-- The URL of the scenarios. -/
def exampleURL : GoString := str "https://example.com/a"

/-- A document with only `<meta property="og:title" content="A Page">`. -/
def pageDoc : Document :=
  [⟨str "meta", [⟨str "property", str "og:title"⟩, ⟨str "content", str "A Page"⟩]⟩]

/-- The record of `pageDoc`. -/
def pageTags : OpenGraphTags := ⟨str "A Page", [], [], []⟩

/-- A document whose `og:title` content is the single byte 0xFF, as in a page
served in Latin-1: not valid UTF-8. -/
def latin1Doc : Document :=
  [⟨str "meta", [⟨str "property", str "og:title"⟩, ⟨str "content", [0xFF]⟩]⟩]

/-- The record of `latin1Doc`. -/
def latin1Tags : OpenGraphTags := ⟨[0xFF], [], [], []⟩

/-- A world with an empty, reachable store at time 0, in which every URL is
answered with the given status code and every body parses to the given
document; `setFault` decides whether writes fail. -/
def serving (code : Nat) (doc : Document) (setFault : Option GoString) : World :=
  { entries := []
    now := 0
    getFault := none
    setFault := setFault
    httpGet := fun _ => Except.ok ⟨code, [], []⟩
    newDocument := fun _ => Except.ok doc
    log := [] }

/-- A world whose store holds the serialization of the given record under
`exampleURL`, unexpired, and whose transport always fails. -/
def caching (t : OpenGraphTags) : World :=
  { entries := [⟨exampleURL, Marshal t, 3600⟩]
    now := 0
    getFault := none
    setFault := none
    httpGet := fun _ => Except.error (str "connection refused")
    newDocument := fun _ => Except.ok []
    log := [] }

/-- A world whose store is unreachable. -/
def unreachable : World :=
  { entries := []
    now := 0
    getFault := some (str "dial tcp: connection refused")
    setFault := some (str "dial tcp: connection refused")
    httpGet := fun _ => Except.ok ⟨200, [], []⟩
    newDocument := fun _ => Except.ok pageDoc
    log := [] }

/-! ## Lemmas on unicode/utf8 -/

theorem DecodeRune_ascii (b : Nat) (rest : GoString) (h : b < 0x80) :
    DecodeRune (b :: rest) = (b, 1) := by
  simp [DecodeRune, RuneSelf, h]

theorem first_cases (b sz lo hi : Nat) (hf : first b = some (sz, lo, hi)) :
    (sz = 2 ∧ 0xC2 ≤ b ∧ b ≤ 0xDF ∧ lo = 0x80 ∧ hi = 0xBF) ∨
    (sz = 3 ∧ b = 0xE0 ∧ lo = 0xA0 ∧ hi = 0xBF) ∨
    (sz = 3 ∧ 0xE1 ≤ b ∧ b ≤ 0xEF ∧ b ≠ 0xED ∧ lo = 0x80 ∧ hi = 0xBF) ∨
    (sz = 3 ∧ b = 0xED ∧ lo = 0x80 ∧ hi = 0x9F) ∨
    (sz = 4 ∧ b = 0xF0 ∧ lo = 0x90 ∧ hi = 0xBF) ∨
    (sz = 4 ∧ 0xF1 ≤ b ∧ b ≤ 0xF3 ∧ lo = 0x80 ∧ hi = 0xBF) ∨
    (sz = 4 ∧ b = 0xF4 ∧ lo = 0x80 ∧ hi = 0x8F) := by
  unfold first at hf
  split_ifs at hf with h1 h2 h3 h4 h5 h6 h7 h8 <;> cases hf
  · left; omega
  · right; left; omega
  · right; right; left; omega
  · right; right; right; left; omega
  · right; right; left; omega
  · right; right; right; right; left; omega
  · right; right; right; right; right; left; omega
  · right; right; right; right; right; right; omega

/-- The shape of a multi-byte decode: the result is an error of width one, or
a rune of width two, three or four read from bytes in the accepted ranges. -/
theorem DecodeRune_shape (b : Nat) (rest : GoString) (hb : ¬ b < 0x80) :
    DecodeRune (b :: rest) = (RuneError, 1) ∨
    (∃ s1 t, rest = s1 :: t ∧ 0xC2 ≤ b ∧ b ≤ 0xDF ∧ 0x80 ≤ s1 ∧ s1 ≤ 0xBF ∧
      DecodeRune (b :: rest) = ((b % 32) * 64 + s1 % 64, 2)) ∨
    (∃ s1 s2 t, rest = s1 :: s2 :: t ∧ 0xE0 ≤ b ∧ b ≤ 0xEF ∧ 0x80 ≤ s1 ∧ s1 ≤ 0xBF ∧
      (b = 0xE0 → 0xA0 ≤ s1) ∧ (b = 0xED → s1 ≤ 0x9F) ∧ 0x80 ≤ s2 ∧ s2 ≤ 0xBF ∧
      DecodeRune (b :: rest) = ((b % 16) * 4096 + (s1 % 64) * 64 + s2 % 64, 3)) ∨
    (∃ s1 s2 s3 t, rest = s1 :: s2 :: s3 :: t ∧ 0xF0 ≤ b ∧ b ≤ 0xF4 ∧ 0x80 ≤ s1 ∧ s1 ≤ 0xBF ∧
      (b = 0xF0 → 0x90 ≤ s1) ∧ (b = 0xF4 → s1 ≤ 0x8F) ∧ 0x80 ≤ s2 ∧ s2 ≤ 0xBF ∧
      0x80 ≤ s3 ∧ s3 ≤ 0xBF ∧
      DecodeRune (b :: rest) =
        ((b % 8) * 262144 + (s1 % 64) * 4096 + (s2 % 64) * 64 + s3 % 64, 4)) := by
  cases hf : first b with
  | none => left; simp [DecodeRune, RuneSelf, hb, hf]
  | some p =>
    obtain ⟨sz, lo, hi⟩ := p
    have hc := first_cases b sz lo hi hf
    rcases rest with _ | ⟨s1, t1⟩
    · left; simp [DecodeRune, RuneSelf, hb, hf]
    · by_cases h1 : s1 < lo ∨ hi < s1
      · left; simp [DecodeRune, RuneSelf, hb, hf, h1]
      · by_cases hsz2 : sz ≤ 2
        · right; left
          have hsz : sz = 2 := by omega
          subst hsz
          refine ⟨s1, t1, rfl, by omega, by omega, by omega, by omega, ?_⟩
          simp [DecodeRune, RuneSelf, hb, hf, h1]
        · rcases t1 with _ | ⟨s2, t2⟩
          · left
            have : ¬ sz ≤ 2 := hsz2
            simp [DecodeRune, RuneSelf, hb, hf, h1, hsz2]
          · by_cases h2 : s2 < 0x80 ∨ 0xBF < s2
            · left
              simp [DecodeRune, RuneSelf, hb, hf, h1, hsz2, h2]
            · by_cases hsz3 : sz ≤ 3
              · right; right; left
                have hsz : sz = 3 := by omega
                subst hsz
                refine ⟨s1, s2, t2, rfl, by omega, by omega, by omega, by omega, by omega,
                  by omega, by omega, by omega, ?_⟩
                simp [DecodeRune, RuneSelf, hb, hf, h1, h2]
              · rcases t2 with _ | ⟨s3, t3⟩
                · left
                  simp [DecodeRune, RuneSelf, hb, hf, h1, hsz2, h2, hsz3]
                · by_cases h3 : s3 < 0x80 ∨ 0xBF < s3
                  · left
                    simp [DecodeRune, RuneSelf, hb, hf, h1, hsz2, h2, hsz3, h3]
                  · right; right; right
                    have hsz : sz = 4 := by omega
                    subst hsz
                    refine ⟨s1, s2, s3, t3, rfl, by omega, by omega, by omega, by omega,
                      by omega, by omega, by omega, by omega, by omega, by omega, ?_⟩
                    simp [DecodeRune, RuneSelf, hb, hf, h1, h2, h3]

theorem first_none (b : Nat) (hf : first b = none) : b < 0xC2 ∨ 0xF4 < b := by
  unfold first at hf
  split_ifs at hf with h1 h2 h3 h4 h5 h6 h7 h8
  omega

theorem DecodeRune_two (b s1 : Nat) (X : GoString)
    (h : 0xC2 ≤ b ∧ b ≤ 0xDF ∧ 0x80 ≤ s1 ∧ s1 ≤ 0xBF) :
    DecodeRune (b :: s1 :: X) = ((b % 32) * 64 + s1 % 64, 2) := by
  have hb : ¬ b < 0x80 := by omega
  cases hf : first b with
  | none => have := first_none b hf; omega
  | some p =>
    obtain ⟨sz, lo, hi⟩ := p
    have hc := first_cases b sz lo hi hf
    have hsz : sz = 2 := by omega
    subst hsz
    have h1 : ¬ (s1 < lo ∨ hi < s1) := by omega
    simp [DecodeRune, RuneSelf, hb, hf, h1]

theorem DecodeRune_three (b s1 s2 : Nat) (X : GoString)
    (h : 0xE0 ≤ b ∧ b ≤ 0xEF ∧ 0x80 ≤ s1 ∧ s1 ≤ 0xBF ∧
      (b = 0xE0 → 0xA0 ≤ s1) ∧ (b = 0xED → s1 ≤ 0x9F) ∧ 0x80 ≤ s2 ∧ s2 ≤ 0xBF) :
    DecodeRune (b :: s1 :: s2 :: X) = ((b % 16) * 4096 + (s1 % 64) * 64 + s2 % 64, 3) := by
  have hb : ¬ b < 0x80 := by omega
  cases hf : first b with
  | none => have := first_none b hf; omega
  | some p =>
    obtain ⟨sz, lo, hi⟩ := p
    have hc := first_cases b sz lo hi hf
    have hsz : sz = 3 := by omega
    subst hsz
    have h1 : ¬ (s1 < lo ∨ hi < s1) := by omega
    have h2 : ¬ (s2 < 0x80 ∨ 0xBF < s2) := by omega
    simp [DecodeRune, RuneSelf, hb, hf, h1, h2]

theorem DecodeRune_four (b s1 s2 s3 : Nat) (X : GoString)
    (h : 0xF0 ≤ b ∧ b ≤ 0xF4 ∧ 0x80 ≤ s1 ∧ s1 ≤ 0xBF ∧
      (b = 0xF0 → 0x90 ≤ s1) ∧ (b = 0xF4 → s1 ≤ 0x8F) ∧ 0x80 ≤ s2 ∧ s2 ≤ 0xBF ∧
      0x80 ≤ s3 ∧ s3 ≤ 0xBF) :
    DecodeRune (b :: s1 :: s2 :: s3 :: X) =
      ((b % 8) * 262144 + (s1 % 64) * 4096 + (s2 % 64) * 64 + s3 % 64, 4) := by
  have hb : ¬ b < 0x80 := by omega
  cases hf : first b with
  | none => have := first_none b hf; omega
  | some p =>
    obtain ⟨sz, lo, hi⟩ := p
    have hc := first_cases b sz lo hi hf
    have hsz : sz = 4 := by omega
    subst hsz
    have h1 : ¬ (s1 < lo ∨ hi < s1) := by omega
    have h2 : ¬ (s2 < 0x80 ∨ 0xBF < s2) := by omega
    have h3 : ¬ (s3 < 0x80 ∨ 0xBF < s3) := by omega
    simp [DecodeRune, RuneSelf, hb, hf, h1, h2, h3]

theorem EncodeRune_two (b s1 : Nat) (h : 0xC2 ≤ b ∧ b ≤ 0xDF ∧ 0x80 ≤ s1 ∧ s1 ≤ 0xBF) :
    EncodeRune ((b % 32) * 64 + s1 % 64) = [b, s1] := by
  unfold EncodeRune
  rw [if_neg (by omega), if_pos (by omega)]
  congr 1
  · omega
  · congr 1; omega

theorem EncodeRune_three (b s1 s2 : Nat)
    (h : 0xE0 ≤ b ∧ b ≤ 0xEF ∧ 0x80 ≤ s1 ∧ s1 ≤ 0xBF ∧
      (b = 0xE0 → 0xA0 ≤ s1) ∧ (b = 0xED → s1 ≤ 0x9F) ∧ 0x80 ≤ s2 ∧ s2 ≤ 0xBF) :
    EncodeRune ((b % 16) * 4096 + (s1 % 64) * 64 + s2 % 64) = [b, s1, s2] := by
  unfold EncodeRune
  rw [if_neg (by omega), if_neg (by omega), if_neg (by omega), if_pos (by omega)]
  congr 1
  · omega
  · congr 1
    · omega
    · congr 1; omega

theorem EncodeRune_four (b s1 s2 s3 : Nat)
    (h : 0xF0 ≤ b ∧ b ≤ 0xF4 ∧ 0x80 ≤ s1 ∧ s1 ≤ 0xBF ∧
      (b = 0xF0 → 0x90 ≤ s1) ∧ (b = 0xF4 → s1 ≤ 0x8F) ∧ 0x80 ≤ s2 ∧ s2 ≤ 0xBF ∧
      0x80 ≤ s3 ∧ s3 ≤ 0xBF) :
    EncodeRune ((b % 8) * 262144 + (s1 % 64) * 4096 + (s2 % 64) * 64 + s3 % 64) =
      [b, s1, s2, s3] := by
  unfold EncodeRune
  rw [if_neg (by omega), if_neg (by omega), if_neg (by omega), if_neg (by omega)]
  congr 1
  · omega
  · congr 1
    · omega
    · congr 1
      · omega
      · congr 1; omega

/-- A successful decode reads exactly the encoding of its rune, and that
encoding decodes to the same result whatever follows it. -/
theorem DecodeRune_valid (b : Nat) (rest : GoString)
    (hv : ¬ ((DecodeRune (b :: rest)).1 = RuneError ∧ (DecodeRune (b :: rest)).2 = 1)) :
    (b :: rest).take (DecodeRune (b :: rest)).2 = EncodeRune (DecodeRune (b :: rest)).1 ∧
    (EncodeRune (DecodeRune (b :: rest)).1).length = (DecodeRune (b :: rest)).2 ∧
    1 ≤ (DecodeRune (b :: rest)).2 ∧
    (DecodeRune (b :: rest)).2 ≤ (b :: rest).length ∧
    ∀ X, DecodeRune (EncodeRune (DecodeRune (b :: rest)).1 ++ X) = DecodeRune (b :: rest) := by
  by_cases hb : b < 0x80
  · have hb2 : b ≤ 127 := by omega
    simp [DecodeRune_ascii b rest hb, EncodeRune, hb2, DecodeRune_ascii b _ hb]
  · rcases DecodeRune_shape b rest hb with h | ⟨s1, t, rfl, h1, h2, h3, h4, hd⟩ |
      ⟨s1, s2, t, rfl, h1, h2, h3, h4, h5, h6, h7, h8, hd⟩ |
      ⟨s1, s2, s3, t, rfl, h1, h2, h3, h4, h5, h6, h7, h8, h9, h10, hd⟩
    · exact absurd (by simp [h]) hv
    · rw [hd]
      simp only [EncodeRune_two b s1 ⟨h1, h2, h3, h4⟩]
      refine ⟨by simp, by simp, by omega, by simp, fun X => ?_⟩
      exact DecodeRune_two b s1 X ⟨h1, h2, h3, h4⟩
    · rw [hd]
      simp only [EncodeRune_three b s1 s2 ⟨h1, h2, h3, h4, h5, h6, h7, h8⟩]
      refine ⟨by simp, by simp, by omega, by simp, fun X => ?_⟩
      exact DecodeRune_three b s1 s2 X ⟨h1, h2, h3, h4, h5, h6, h7, h8⟩
    · rw [hd]
      simp only [EncodeRune_four b s1 s2 s3 ⟨h1, h2, h3, h4, h5, h6, h7, h8, h9, h10⟩]
      refine ⟨by simp, by simp, by omega, by simp, fun X => ?_⟩
      exact DecodeRune_four b s1 s2 s3 X ⟨h1, h2, h3, h4, h5, h6, h7, h8, h9, h10⟩

/-! ## Lemmas on string literals: decoding what the encoder wrote -/

theorem hexVal_hex (n : Nat) (h : n < 16) : hexVal (hex n) = some n := by
  unfold hex hexVal
  split_ifs <;> first | omega | (congr 1; omega)

theorem unquoteLoop_quote (k : Nat) (X : GoString) :
    unquoteLoop (k + 1) (0x22 :: X) = some ([], X) := by
  simp [unquoteLoop]

theorem unquoteLoop_plain (k c : Nat) (Y : GoString) (h1 : 0x20 ≤ c) (h2 : c < 0x80)
    (h3 : c ≠ 0x22) (h4 : c ≠ 0x5C) :
    unquoteLoop (k + 1) (c :: Y) = emit [c] (unquoteLoop k Y) := by
  have h5 : ¬ c < 0x20 := by omega
  simp [unquoteLoop, h3, h4, h5, RuneSelf, h2]

theorem unquoteLoop_u4 (k c1 c2 c3 c4 r : Nat) (Y : GoString)
    (hr : getu4 (0x5C :: 0x75 :: c1 :: c2 :: c3 :: c4 :: Y) = some r)
    (hs : IsSurrogate r = false) :
    unquoteLoop (k + 1) (0x5C :: 0x75 :: c1 :: c2 :: c3 :: c4 :: Y) =
      emit (EncodeRune r) (unquoteLoop k Y) := by
  simp [unquoteLoop, hr, hs]

theorem str_escapes :
    str "\\b" = [0x5C, 0x62] ∧ str "\\f" = [0x5C, 0x66] ∧ str "\\n" = [0x5C, 0x6E] ∧
    str "\\r" = [0x5C, 0x72] ∧ str "\\t" = [0x5C, 0x74] ∧ str "\\u00" = [0x5C, 0x75, 0x30, 0x30] ∧
    str "\\ufffd" = [0x5C, 0x75, 0x66, 0x66, 0x66, 0x64] ∧
    str "\\u202" = [0x5C, 0x75, 0x32, 0x30, 0x32] := by
  decide

theorem EncodeRune_ascii (b : Nat) (hb : b < 0x80) : EncodeRune b = [b] := by
  unfold EncodeRune
  rw [if_pos (by omega)]

theorem unquoteLoop_escape (k b : Nat) (Y : GoString) (hb : b < 0x80)
    (hs : htmlSafeSet b = false) :
    unquoteLoop (k + 1) (escapeByte b ++ Y) = emit [b] (unquoteLoop k Y) := by
  obtain ⟨e1, e2, e3, e4, e5, e6, -, -⟩ := str_escapes
  unfold escapeByte
  rw [e1, e2, e3, e4, e5, e6]
  split_ifs with h1 h2 h3 h4 h5 h6
  · rcases h1 with rfl | rfl <;> simp [unquoteLoop, simpleEscape]
  · subst h2; simp [unquoteLoop, simpleEscape]
  · subst h3; simp [unquoteLoop, simpleEscape]
  · subst h4; simp [unquoteLoop, simpleEscape]
  · subst h5; simp [unquoteLoop, simpleEscape]
  · subst h6; simp [unquoteLoop, simpleEscape]
  · have hg : getu4 (0x5C :: 0x75 :: 0x30 :: 0x30 :: hex (b / 16) :: hex (b % 16) :: Y) = some b := by
      have z : hexVal 0x30 = some 0 := by decide
      simp only [getu4, z, hexVal_hex (b / 16) (by omega), hexVal_hex (b % 16) (by omega)]
      simp
      omega
    have hsur : IsSurrogate b = false := by
      simp [IsSurrogate]; omega
    have := unquoteLoop_u4 k 0x30 0x30 (hex (b / 16)) (hex (b % 16)) b Y hg hsur
    rw [EncodeRune_ascii b hb] at this
    simpa using this

theorem unquoteLoop_fffd (k : Nat) (Y : GoString) :
    unquoteLoop (k + 1) (str "\\ufffd" ++ Y) = emit [0xEF, 0xBF, 0xBD] (unquoteLoop k Y) := by
  have hg : getu4 (0x5C :: 0x75 :: 0x66 :: 0x66 :: 0x66 :: 0x64 :: Y) = some 0xFFFD := by
    have z1 : hexVal 0x66 = some 15 := by decide
    have z2 : hexVal 0x64 = some 13 := by decide
    simp only [getu4, z1, z2]
    simp
  have he : EncodeRune 0xFFFD = [0xEF, 0xBF, 0xBD] := by decide
  have := unquoteLoop_u4 k 0x66 0x66 0x66 0x64 0xFFFD Y hg (by decide)
  rw [he] at this
  rw [str_escapes.2.2.2.2.2.2.1]
  simpa using this

theorem unquoteLoop_202x (k r : Nat) (Y : GoString) (hr : r = 0x2028 ∨ r = 0x2029) :
    unquoteLoop (k + 1) (str "\\u202" ++ [hex (r % 16)] ++ Y) =
      emit (EncodeRune r) (unquoteLoop k Y) := by
  have hg : getu4 (0x5C :: 0x75 :: 0x32 :: 0x30 :: 0x32 :: hex (r % 16) :: Y) = some r := by
    have z1 : hexVal 0x32 = some 2 := by decide
    have z2 : hexVal 0x30 = some 0 := by decide
    simp only [getu4, z1, z2, hexVal_hex (r % 16) (by omega)]
    simp
    omega
  have hsur : IsSurrogate r = false := by
    simp [IsSurrogate]; omega
  have := unquoteLoop_u4 k 0x32 0x30 0x32 (hex (r % 16)) r Y hg hsur
  rw [str_escapes.2.2.2.2.2.2.2]
  simpa using this

theorem unquoteLoop_high (k c : Nat) (Z : GoString) (hc : ¬ c < 0x80) :
    unquoteLoop (k + 1) (c :: Z) =
      emit (EncodeRune (DecodeRune (c :: Z)).1)
        (unquoteLoop k ((c :: Z).drop (DecodeRune (c :: Z)).2)) := by
  have c1 : c ≠ 0x22 := by omega
  have c2 : c ≠ 0x5C := by omega
  have c3 : ¬ c < 0x20 := by omega
  have c4 : ¬ c < RuneSelf := by simpa [RuneSelf] using hc
  simp [unquoteLoop, c1, c2, c3, c4]

theorem unquoteLoop_rune (k b : Nat) (rest Y : GoString) (hb : ¬ b < 0x80)
    (hv : ¬ ((DecodeRune (b :: rest)).1 = RuneError ∧ (DecodeRune (b :: rest)).2 = 1)) :
    unquoteLoop (k + 1) (EncodeRune (DecodeRune (b :: rest)).1 ++ Y) =
      emit (EncodeRune (DecodeRune (b :: rest)).1) (unquoteLoop k Y) := by
  obtain ⟨h1, h2, h3, h4, h5⟩ := DecodeRune_valid b rest hv
  have hd := h5 Y
  obtain ⟨n, hn⟩ : ∃ n, (DecodeRune (b :: rest)).2 = n + 1 :=
    ⟨(DecodeRune (b :: rest)).2 - 1, by omega⟩
  have hhead : ∃ tl, EncodeRune (DecodeRune (b :: rest)).1 = b :: tl := by
    rw [← h1, hn]; exact ⟨_, rfl⟩
  obtain ⟨tl, htl⟩ := hhead
  have hstep := unquoteLoop_high k b (tl ++ Y) hb
  rw [← List.cons_append, ← htl, hd] at hstep
  rw [hstep]
  congr 1
  rw [List.drop_append_eq_append_drop, h2]
  simp [← h2]

theorem escapeByte_length (b : Nat) : 1 ≤ (escapeByte b).length := by
  obtain ⟨e1, e2, e3, e4, e5, e6, -, -⟩ := str_escapes
  unfold escapeByte
  rw [e1, e2, e3, e4, e5, e6]
  split_ifs <;> simp

theorem emit_some (pre out rest : GoString) :
    emit pre (some (out, rest)) = some (pre ++ out, rest) := rfl

/-- Decoding what `appendStringLoop` wrote, up to the closing quote, yields the
source coerced to valid UTF-8 and stops right after the quote. -/
theorem unquoteLoop_appendStringLoop (n : Nat) :
    ∀ (s X : GoString) (k : Nat), s.length ≤ n → (appendStringLoop n s).length < k →
      unquoteLoop k (appendStringLoop n s ++ 0x22 :: X) = some (coerceLoop n s, X) := by
  induction n with
  | zero =>
    intro s X k hs hk
    have : s = [] := List.length_eq_zero.mp (by omega)
    subst this
    obtain ⟨k, rfl⟩ : ∃ j, k = j + 1 := ⟨k - 1, by omega⟩
    simp [appendStringLoop, coerceLoop, unquoteLoop_quote]
  | succ n ih =>
    intro s X k hs hk
    obtain ⟨k, rfl⟩ : ∃ j, k = j + 1 := ⟨k - 1, by omega⟩
    rcases s with _ | ⟨b, rest⟩
    · simp [appendStringLoop, coerceLoop, unquoteLoop_quote]
    · have hrest : rest.length ≤ n := by simpa using hs
      by_cases hb : b < 0x80
      · have hbr : b < RuneSelf := by simpa [RuneSelf] using hb
        have hco : coerceLoop (n + 1) (b :: rest) = b :: coerceLoop n rest := by
          have hne : ¬ (b = RuneError) := by unfold RuneError; omega
          simp [coerceLoop, DecodeRune_ascii b rest hb, hne]
        rw [hco]
        by_cases hsafe : htmlSafeSet b = true
        · have hout : appendStringLoop (n + 1) (b :: rest) = b :: appendStringLoop n rest := by
            simp [appendStringLoop, hbr, hsafe]
          rw [hout] at hk ⊢
          have hc : 0x20 ≤ b ∧ b ≠ 0x22 ∧ b ≠ 0x5C := by
            simp [htmlSafeSet] at hsafe; omega
          rw [List.cons_append, unquoteLoop_plain k b _ hc.1 hb hc.2.1 hc.2.2,
            ih rest X k hrest (by simpa using hk), emit_some]
          rfl
        · have hsafe2 : htmlSafeSet b = false := by simpa using hsafe
          have hout : appendStringLoop (n + 1) (b :: rest) =
              escapeByte b ++ appendStringLoop n rest := by
            simp [appendStringLoop, hbr, hsafe2]
          rw [hout] at hk ⊢
          rw [List.append_assoc, unquoteLoop_escape k b _ hb hsafe2,
            ih rest X k hrest
              (by have := escapeByte_length b; simp at hk; omega), emit_some]
          rfl
      · have hbr : ¬ b < RuneSelf := by simpa [RuneSelf] using hb
        by_cases hv : (DecodeRune (b :: rest)).1 = RuneError ∧ (DecodeRune (b :: rest)).2 = 1
        · have hco : coerceLoop (n + 1) (b :: rest) = [0xEF, 0xBF, 0xBD] ++ coerceLoop n rest := by
            simp [coerceLoop, hv]
          have hout : appendStringLoop (n + 1) (b :: rest) =
              str "\\ufffd" ++ appendStringLoop n rest := by
            simp [appendStringLoop, hbr, hv]
          rw [hco]
          rw [hout] at hk ⊢
          rw [List.append_assoc, unquoteLoop_fffd,
            ih rest X k hrest (by
              rw [str_escapes.2.2.2.2.2.2.1] at hk
              simp only [List.length_append, List.length_cons, List.length_nil] at hk
              omega), emit_some]
        · obtain ⟨h1, h2, h3, h4, h5⟩ := DecodeRune_valid b rest hv
          have hdrop : ((b :: rest).drop (DecodeRune (b :: rest)).2).length ≤ n := by
            simp only [List.length_drop, List.length_cons] at hs ⊢; omega
          have hco : coerceLoop (n + 1) (b :: rest) =
              EncodeRune (DecodeRune (b :: rest)).1 ++
                coerceLoop n ((b :: rest).drop (DecodeRune (b :: rest)).2) := by
            rw [← h1]; simp [coerceLoop, hv]
          rw [hco]
          by_cases hls : (DecodeRune (b :: rest)).1 = 0x2028 ∨ (DecodeRune (b :: rest)).1 = 0x2029
          · have hout : appendStringLoop (n + 1) (b :: rest) =
                str "\\u202" ++ [hex ((DecodeRune (b :: rest)).1 % 16)] ++
                  appendStringLoop n ((b :: rest).drop (DecodeRune (b :: rest)).2) := by
              simp [appendStringLoop, hbr, hv, hls]
            rw [hout] at hk ⊢
            rw [List.append_assoc, unquoteLoop_202x k _ _ hls,
              ih _ X k hdrop (by
                rw [str_escapes.2.2.2.2.2.2.2] at hk
                simp only [List.length_append, List.length_cons, List.length_nil] at hk
                omega), emit_some]
          · have hout : appendStringLoop (n + 1) (b :: rest) =
                EncodeRune (DecodeRune (b :: rest)).1 ++
                  appendStringLoop n ((b :: rest).drop (DecodeRune (b :: rest)).2) := by
              rw [← h1]; simp [appendStringLoop, hbr, hv, hls]
            rw [hout] at hk ⊢
            rw [List.append_assoc, unquoteLoop_rune k b rest _ hb hv,
              ih _ X k hdrop (by
                simp only [List.length_append] at hk
                omega), emit_some]

/-- A string literal written by `appendString`, without its opening quote, is
read back as the source coerced to valid UTF-8. -/
theorem parseString_appendStringLoop (s X : GoString) :
    parseString (appendStringLoop s.length s ++ 0x22 :: X) = some (coerceUTF8 s, X) := by
  unfold parseString coerceUTF8
  exact unquoteLoop_appendStringLoop s.length s X _ (le_refl _) (by simp)

theorem skipWS_cons (c : Nat) (X : GoString) (h : isSpace c = false) :
    skipWS (c :: X) = c :: X := by
  simp [skipWS, List.dropWhile, h]

/-- The string value written by `appendString` is parsed as a string. -/
theorem parseValue_appendString (F depth : Nat) (v X : GoString) :
    parseValue (F + 1) depth (appendString v ++ X) = some (JValue.string (coerceUTF8 v), X) := by
  unfold appendString
  simp only [List.singleton_append, List.cons_append, List.append_assoc, List.nil_append]
  rw [parseValue]
  simp [parseString_appendStringLoop]

theorem skipWS_appendString (v X : GoString) :
    skipWS (appendString v ++ X) = appendString v ++ X := by
  unfold appendString
  simp only [List.singleton_append, List.cons_append]
  exact skipWS_cons _ _ (by decide)

/-- A member written by the encoder and followed by a comma. -/
theorem parseMembers_comma (F depth : Nat) (k v Z : GoString) :
    parseMembers (F + 2) depth (appendString k ++ 0x3A :: (appendString v ++ 0x2C :: Z)) =
      (parseMembers (F + 1) depth (skipWS Z)).map
        (fun r => ((coerceUTF8 k, JValue.string (coerceUTF8 v)) :: r.1, r.2)) := by
  have hk : appendString k ++ 0x3A :: (appendString v ++ 0x2C :: Z) =
      0x22 :: (appendStringLoop k.length k ++ 0x22 :: 0x3A :: (appendString v ++ 0x2C :: Z)) := by
    simp [appendString]
  rw [hk, parseMembers]
  have h1 : skipWS (0x3A :: (appendString v ++ 0x2C :: Z)) = 0x3A :: (appendString v ++ 0x2C :: Z) :=
    skipWS_cons _ _ (by decide)
  have h2 : skipWS (0x2C :: Z) = 0x2C :: Z := skipWS_cons _ _ (by decide)
  simp [parseString_appendStringLoop, h1, skipWS_appendString, parseValue_appendString, h2]

/-- A member written by the encoder and followed by the closing brace. -/
theorem parseMembers_brace (F depth : Nat) (k v Z : GoString) :
    parseMembers (F + 2) depth (appendString k ++ 0x3A :: (appendString v ++ 0x7D :: Z)) =
      some ([(coerceUTF8 k, JValue.string (coerceUTF8 v))], Z) := by
  have hk : appendString k ++ 0x3A :: (appendString v ++ 0x7D :: Z) =
      0x22 :: (appendStringLoop k.length k ++ 0x22 :: 0x3A :: (appendString v ++ 0x7D :: Z)) := by
    simp [appendString]
  rw [hk, parseMembers]
  have h1 : skipWS (0x3A :: (appendString v ++ 0x7D :: Z)) = 0x3A :: (appendString v ++ 0x7D :: Z) :=
    skipWS_cons _ _ (by decide)
  have h2 : skipWS (0x7D :: Z) = 0x7D :: Z := skipWS_cons _ _ (by decide)
  simp [parseString_appendStringLoop, h1, skipWS_appendString, parseValue_appendString, h2]

/-- The text `json.Marshal` writes, member by member. -/
theorem Marshal_eq (t : OpenGraphTags) :
    Marshal t = 0x7B :: (appendString (str "title") ++ 0x3A :: (appendString t.Title ++ 0x2C ::
      (appendString (str "description") ++ 0x3A :: (appendString t.Desc ++ 0x2C ::
      (appendString (str "image") ++ 0x3A :: (appendString t.Img ++ 0x2C ::
      (appendString (str "url") ++ 0x3A :: (appendString t.URL ++ 0x7D :: [])))))))) := by
  have e1 : str "\x7b\"title\":" = 0x7B :: (appendString (str "title") ++ [0x3A]) := by decide
  have e2 : str ",\"description\":" = 0x2C :: (appendString (str "description") ++ [0x3A]) := by
    decide
  have e3 : str ",\"image\":" = 0x2C :: (appendString (str "image") ++ [0x3A]) := by decide
  have e4 : str ",\"url\":" = 0x2C :: (appendString (str "url") ++ [0x3A]) := by decide
  have e5 : str "\x7d" = [0x7D] := by decide
  unfold Marshal
  rw [e1, e2, e3, e4, e5]
  simp only [List.cons_append, List.append_assoc, List.singleton_append, List.nil_append]

theorem parseValue_object (F depth : Nat) (k X : GoString) (hd : depth < maxNestingDepth) :
    parseValue (F + 1) depth (0x7B :: (appendString k ++ X)) =
      (parseMembers F (depth + 1) (appendString k ++ X)).map
        (fun r => (JValue.object r.1, r.2)) := by
  have hk : appendString k ++ X = 0x22 :: (appendStringLoop k.length k ++ 0x22 :: X) := by
    simp [appendString]
  have hs : skipWS (0x22 :: (appendStringLoop k.length k ++ 0x22 :: X)) =
      0x22 :: (appendStringLoop k.length k ++ 0x22 :: X) := skipWS_cons _ _ (by decide)
  have hd2 : ¬ maxNestingDepth < depth + 1 := by omega
  rw [hk, parseValue]
  simp [hs, hd2]

theorem appendString_length (s : GoString) : 2 ≤ (appendString s).length := by
  simp [appendString]

/-- The value tree of a marshalled record. -/
theorem parseJSON_Marshal (t : OpenGraphTags) :
    parseJSON (Marshal t) = some (JValue.object
      [(str "title", JValue.string (coerceUTF8 t.Title)),
       (str "description", JValue.string (coerceUTF8 t.Desc)),
       (str "image", JValue.string (coerceUTF8 t.Img)),
       (str "url", JValue.string (coerceUTF8 t.URL))]) := by
  have k1 : coerceUTF8 (str "title") = str "title" := by decide
  have k2 : coerceUTF8 (str "description") = str "description" := by decide
  have k3 : coerceUTF8 (str "image") = str "image" := by decide
  have k4 : coerceUTF8 (str "url") = str "url" := by decide
  obtain ⟨F, hF⟩ : ∃ F, (Marshal t).length + 1 = F + 6 := by
    refine ⟨(Marshal t).length - 5, ?_⟩
    have := appendString_length t.Title
    have := appendString_length t.Desc
    rw [Marshal_eq]
    simp only [List.length_cons, List.length_append]
    omega
  unfold parseJSON
  rw [hF, Marshal_eq, skipWS_cons _ _ (by decide), parseValue_object (F + 5) 0 _ _ (by decide)]
  have m1 := parseMembers_comma (F + 3) 1 (str "title") t.Title
  have m2 := parseMembers_comma (F + 2) 1 (str "description") t.Desc
  have m3 := parseMembers_comma (F + 1) 1 (str "image") t.Img
  have m4 := parseMembers_brace F 1 (str "url") t.URL []
  simp only [Nat.add_assoc, Nat.reduceAdd] at m1 m2 m3 m4 ⊢
  rw [m1, skipWS_appendString, m2, skipWS_appendString, m3, skipWS_appendString, m4]
  simp [k1, k2, k3, k4, skipWS]

theorem findField_names :
    findField (str "title") = some Field.Title ∧
    findField (str "description") = some Field.Desc ∧
    findField (str "image") = some Field.Img ∧
    findField (str "url") = some Field.URL := by
  decide

/-- Unmarshalling a marshalled record succeeds and yields the record with
every field coerced to valid UTF-8, whatever the target held before. -/
theorem Unmarshal_Marshal (t t0 : OpenGraphTags) :
    Unmarshal (Marshal t) t0 = Except.ok (coerceTags t) := by
  obtain ⟨f1, f2, f3, f4⟩ := findField_names
  unfold Unmarshal
  rw [parseJSON_Marshal]
  simp [storeMember, f1, f2, f3, f4, setField, coerceTags]

theorem coerceLoop_of_valid (n : Nat) :
    ∀ s : GoString, validLoop n s = true → coerceLoop n s = s := by
  induction n with
  | zero =>
    intro s h
    rcases s with _ | ⟨b, rest⟩
    · simp [coerceLoop]
    · simp [validLoop] at h
  | succ n ih =>
    intro s h
    rcases s with _ | ⟨b, rest⟩
    · simp [coerceLoop]
    · by_cases hv : (DecodeRune (b :: rest)).1 = RuneError ∧ (DecodeRune (b :: rest)).2 = 1
      · simp [validLoop, hv] at h
      · have h2 : validLoop n ((b :: rest).drop (DecodeRune (b :: rest)).2) = true := by
          simpa [validLoop, hv] using h
        have hco : coerceLoop (n + 1) (b :: rest) =
            (b :: rest).take (DecodeRune (b :: rest)).2 ++
              coerceLoop n ((b :: rest).drop (DecodeRune (b :: rest)).2) := by
          simp [coerceLoop, hv]
        rw [hco, ih _ h2, List.take_append_drop]

/-- Coercion leaves valid UTF-8 unchanged. -/
theorem coerceUTF8_of_valid (s : GoString) (h : Valid s = true) : coerceUTF8 s = s :=
  coerceLoop_of_valid s.length s h

theorem coerceTags_of_valid (t : OpenGraphTags) (h : ValidTags t) : coerceTags t = t := by
  obtain ⟨h1, h2, h3, h4⟩ := h
  cases t
  simp only [coerceTags] at *
  rw [coerceUTF8_of_valid _ h1, coerceUTF8_of_valid _ h2, coerceUTF8_of_valid _ h3,
    coerceUTF8_of_valid _ h4]

/-! ### The paths of `CacheHandler` -/

theorem redisGet_snd (u : GoString) (w : World) :
    (redisGet u w).2 = { w with log := w.log ++ [Event.Get u] } := by
  unfold redisGet
  cases w.getFault with
  | some c => rfl
  | none => cases lookup w u <;> rfl

theorem redisGet_Nil (u : GoString) (w : World) (h : (redisGet u w).1 = GetResult.Nil) :
    w.getFault = none ∧ lookup w u = none := by
  unfold redisGet at h
  cases hf : w.getFault with
  | some c => simp [hf] at h
  | none =>
    cases hl : lookup w u with
    | some e => simp [hf, hl] at h
    | none => exact ⟨rfl, rfl⟩

theorem FetchHTML_snd (u : GoString) (w : World) :
    (FetchHTML u w).2 = { w with log := w.log ++ [Event.HttpGet u] } := by
  unfold FetchHTML
  cases w.httpGet u with
  | error c => rfl
  | ok resp =>
    by_cases hc : resp.StatusCode ≠ StatusOK
    · simp [hc]
    · cases hd : w.newDocument resp.Body <;> simp [hc, hd]

theorem FetchHTML_fst_log (u : GoString) (w : World) (l : List Event) :
    (FetchHTML u { w with log := l }).1 = (FetchHTML u w).1 := by
  unfold FetchHTML
  cases w.httpGet u with
  | error c => rfl
  | ok resp =>
    by_cases hc : resp.StatusCode ≠ StatusOK
    · simp [hc]
    · cases hd : w.newDocument resp.Body <;> simp [hc, hd]

/-- The miss path with a successful fetch. -/
theorem CacheHandler_miss (u : GoString) (w : World) (doc : Document)
    (hget : (redisGet u w).1 = GetResult.Nil) (hfetch : (FetchHTML u w).1 = Except.ok doc) :
    CacheHandler u w =
      (Except.ok (coerceTags (ParseTagsFromHTML doc)),
        (redisSet u (Marshal (ParseTagsFromHTML doc)) Hour
          { w with log := w.log ++ [Event.Get u] ++ [Event.HttpGet u] }).2) := by
  have h1 : redisGet u w = (GetResult.Nil, { w with log := w.log ++ [Event.Get u] }) := by
    rw [← redisGet_snd, ← hget]
  have h2 : FetchHTML u { w with log := w.log ++ [Event.Get u] } =
      (Except.ok doc, { w with log := w.log ++ [Event.Get u] ++ [Event.HttpGet u] }) := by
    have a := FetchHTML_fst_log u w (w.log ++ [Event.Get u])
    have b := FetchHTML_snd u { w with log := w.log ++ [Event.Get u] }
    rw [hfetch] at a
    rw [← a, ← b]
  unfold CacheHandler
  rw [h1]
  simp only [h2, unmarshalCached, Unmarshal_Marshal]

/-- The miss path with a failed fetch. -/
theorem CacheHandler_fetch_error (u : GoString) (w : World) (e : FetchError)
    (hget : (redisGet u w).1 = GetResult.Nil) (hfetch : (FetchHTML u w).1 = Except.error e) :
    CacheHandler u w =
      (Except.error (HandlerError.fetch e),
        { w with log := w.log ++ [Event.Get u] ++ [Event.HttpGet u] }) := by
  have h1 : redisGet u w = (GetResult.Nil, { w with log := w.log ++ [Event.Get u] }) := by
    rw [← redisGet_snd, ← hget]
  have h2 : FetchHTML u { w with log := w.log ++ [Event.Get u] } =
      (Except.error e, { w with log := w.log ++ [Event.Get u] ++ [Event.HttpGet u] }) := by
    have a := FetchHTML_fst_log u w (w.log ++ [Event.Get u])
    have b := FetchHTML_snd u { w with log := w.log ++ [Event.Get u] }
    rw [hfetch] at a
    rw [← a, ← b]
  unfold CacheHandler
  rw [h1]
  simp only [h2]

/-- The hit path. -/
theorem CacheHandler_hit (u : GoString) (w : World) (v : GoString)
    (hget : (redisGet u w).1 = GetResult.Val v) :
    CacheHandler u w = unmarshalCached v { w with log := w.log ++ [Event.Get u] } := by
  have h1 : redisGet u w = (GetResult.Val v, { w with log := w.log ++ [Event.Get u] }) := by
    rw [← redisGet_snd, ← hget]
  unfold CacheHandler
  rw [h1]

/-- The store-error path. -/
theorem CacheHandler_store_error (u : GoString) (w : World) (c : GoString)
    (hget : (redisGet u w).1 = GetResult.Err c) :
    CacheHandler u w =
      (Except.error (HandlerError.cache c), { w with log := w.log ++ [Event.Get u] }) := by
  have h1 : redisGet u w = (GetResult.Err c, { w with log := w.log ++ [Event.Get u] }) := by
    rw [← redisGet_snd, ← hget]
  unfold CacheHandler
  rw [h1]

/-! ### Selections -/

theorem find?_eq_head?_filter {α : Type} (p : α → Bool) (l : List α) :
    l.find? p = (l.filter p).head? := by
  induction l with
  | nil => rfl
  | cons a l ih =>
    cases h : p a with
    | true => rw [List.find?_cons_of_pos _ h, List.filter_cons_of_pos h, List.head?_cons]
    | false =>
      rw [List.find?_cons_of_neg _ (by simp [h]), List.filter_cons_of_neg (by simp [h]), ih]

theorem AttrOr_Find (doc : Document) (name : GoString) :
    AttrOr (Find doc name) (str "content") [] = firstMetaContent doc name := by
  have hp : (fun n : Node => decide (n.Data = str "meta" ∧
      ∃ a ∈ n.Attr, a.Key = str "property" ∧ a.Val = name)) = matchMetaProperty name := by
    funext n
    unfold matchMetaProperty
    rw [Bool.eq_iff_iff]
    simp [List.any_eq_true]
  unfold firstMetaContent AttrOr Find
  rw [hp, find?_eq_head?_filter]
  cases hsel : List.filter (matchMetaProperty name) doc with
  | nil => simp
  | cons n tl =>
    simp only [List.head?_cons]
    cases List.find? (fun a => decide (a.Key = str "content")) n.Attr <;> rfl

/-! ## Claims -/

/-- C1 as stated fails: on a miss whose fetch yields a document with the
`og:title` content 0xFF, `CacheHandler` returns no error but a record that
differs from `ParseTagsFromHTML` of the document (the title is U+FFFD). -/
theorem C1_miss_record_differs_on_invalid_utf8 :
    (redisGet exampleURL (serving 200 latin1Doc none)).1 = GetResult.Nil ∧
    (FetchHTML exampleURL (serving 200 latin1Doc none)).1 = Except.ok latin1Doc ∧
    (CacheHandler exampleURL (serving 200 latin1Doc none)).1 =
      Except.ok ⟨[0xEF, 0xBF, 0xBD], [], [], []⟩ ∧
    (CacheHandler exampleURL (serving 200 latin1Doc none)).1 ≠
      Except.ok (ParseTagsFromHTML latin1Doc) := by
  decide

/-- C1, amended: when the lookup of `u` reports key not found and `FetchHTML`
returns `doc`, `CacheHandler` returns no error and the record
`ParseTagsFromHTML doc` with every field coerced to valid UTF-8, which is
`ParseTagsFromHTML doc` itself when its fields are valid UTF-8; nothing is
assumed about the cache write, so this holds whether it succeeds or fails. -/
theorem C1_miss_returns_parsed_record (u : GoString) (w : World) (doc : Document)
    (hget : (redisGet u w).1 = GetResult.Nil) (hfetch : (FetchHTML u w).1 = Except.ok doc) :
    (CacheHandler u w).1 = Except.ok (coerceTags (ParseTagsFromHTML doc)) ∧
    (ValidTags (ParseTagsFromHTML doc) →
      (CacheHandler u w).1 = Except.ok (ParseTagsFromHTML doc)) := by
  rw [CacheHandler_miss u w doc hget hfetch]
  exact ⟨rfl, fun hv => by rw [coerceTags_of_valid _ hv]⟩

/-- The amended C1 at the scenario page, with a failing cache write. -/
theorem C1_miss_returns_parsed_record_witness :
    (CacheHandler exampleURL (serving 200 pageDoc (some (str "write failed")))).1 =
      Except.ok (coerceTags (ParseTagsFromHTML pageDoc)) ∧
    (ValidTags (ParseTagsFromHTML pageDoc) →
      (CacheHandler exampleURL (serving 200 pageDoc (some (str "write failed")))).1 =
        Except.ok (ParseTagsFromHTML pageDoc)) :=
  C1_miss_returns_parsed_record exampleURL (serving 200 pageDoc (some (str "write failed")))
    pageDoc (by decide) (by decide)

/-- C2 as stated fails: with the serialization of the record whose title is
the byte 0xFF stored under the key, `CacheHandler` returns a record that
differs from it. -/
theorem C2_hit_record_differs_on_invalid_utf8 :
    (redisGet exampleURL (caching latin1Tags)).1 = GetResult.Val (Marshal latin1Tags) ∧
    (CacheHandler exampleURL (caching latin1Tags)).1 ≠ Except.ok latin1Tags := by
  decide

/-- C2, amended: when the lookup of `u` yields the serialization of a record
`r`, `CacheHandler` returns no error and `r` with every field coerced to valid
UTF-8, which is `r` itself when its fields are valid UTF-8; the only call made
is the lookup (no `FetchHTML`, no write) and the store is unchanged. -/
theorem C2_hit_returns_cached_record (u : GoString) (w : World) (r : OpenGraphTags)
    (hget : (redisGet u w).1 = GetResult.Val (Marshal r)) :
    (CacheHandler u w).1 = Except.ok (coerceTags r) ∧
    (ValidTags r → (CacheHandler u w).1 = Except.ok r) ∧
    (CacheHandler u w).2.log = w.log ++ [Event.Get u] ∧
    (CacheHandler u w).2.entries = w.entries := by
  have h : CacheHandler u w =
      (Except.ok (coerceTags r), { w with log := w.log ++ [Event.Get u] }) := by
    rw [CacheHandler_hit u w _ hget, unmarshalCached, Unmarshal_Marshal]
  rw [h]
  exact ⟨rfl, fun hv => by rw [coerceTags_of_valid _ hv], rfl, rfl⟩

/-- The amended C2 at a store holding the serialization of the scenario record. -/
theorem C2_hit_returns_cached_record_witness :
    (CacheHandler exampleURL (caching pageTags)).1 = Except.ok (coerceTags pageTags) ∧
    (ValidTags pageTags → (CacheHandler exampleURL (caching pageTags)).1 = Except.ok pageTags) ∧
    (CacheHandler exampleURL (caching pageTags)).2.log =
      (caching pageTags).log ++ [Event.Get exampleURL] ∧
    (CacheHandler exampleURL (caching pageTags)).2.entries = (caching pageTags).entries :=
  C2_hit_returns_cached_record exampleURL (caching pageTags) pageTags (by decide)

/-- C3: when a first `CacheHandler` call for `u` finds no entry, its fetch
succeeds and its write succeeds, then a call for `u` in any world that has the
store as the first call left it, less than an hour later and with the store
reachable, finds the entry under `u`, makes the lookup as its only call (no
`FetchHTML`) and returns the same record as the first call. -/
theorem C3_cache_population (u : GoString) (w w2 : World) (doc : Document) (dt : Nat)
    (hget : (redisGet u w).1 = GetResult.Nil) (hfetch : (FetchHTML u w).1 = Except.ok doc)
    (hset : w.setFault = none)
    (hentries : w2.entries = (CacheHandler u w).2.entries)
    (hnow : w2.now = (CacheHandler u w).2.now + dt) (hdt : dt < Hour)
    (hup : w2.getFault = none) :
    (redisGet u w2).1 = GetResult.Val (Marshal (ParseTagsFromHTML doc)) ∧
    (CacheHandler u w2).2.log = w2.log ++ [Event.Get u] ∧
    (∃ t, (CacheHandler u w).1 = Except.ok t ∧ (CacheHandler u w2).1 = Except.ok t) := by
  rw [CacheHandler_miss u w doc hget hfetch] at hentries hnow
  simp only [redisSet, hset] at hentries hnow
  have hlook : lookup w2 u = some ⟨u, Marshal (ParseTagsFromHTML doc), w.now + Hour⟩ := by
    unfold lookup
    rw [hentries, List.find?_cons_of_pos]
    simp only [decide_eq_true_eq, true_and]
    omega
  have hget2 : (redisGet u w2).1 = GetResult.Val (Marshal (ParseTagsFromHTML doc)) := by
    simp [redisGet, hup, hlook]
  have h2 : CacheHandler u w2 = (Except.ok (coerceTags (ParseTagsFromHTML doc)),
      { w2 with log := w2.log ++ [Event.Get u] }) := by
    rw [CacheHandler_hit u w2 _ hget2, unmarshalCached, Unmarshal_Marshal]
  refine ⟨hget2, by rw [h2], coerceTags (ParseTagsFromHTML doc), ?_, by rw [h2]⟩
  rw [CacheHandler_miss u w doc hget hfetch]

/-- C3 at the scenario page, the second call 3599 seconds after the first. -/
theorem C3_cache_population_witness :
    (redisGet exampleURL
      { (CacheHandler exampleURL (serving 200 pageDoc none)).2 with now := 0 + 3599 }).1 =
        GetResult.Val (Marshal (ParseTagsFromHTML pageDoc)) ∧
    (CacheHandler exampleURL
      { (CacheHandler exampleURL (serving 200 pageDoc none)).2 with now := 0 + 3599 }).2.log =
        (CacheHandler exampleURL (serving 200 pageDoc none)).2.log ++ [Event.Get exampleURL] ∧
    (∃ t, (CacheHandler exampleURL (serving 200 pageDoc none)).1 = Except.ok t ∧
      (CacheHandler exampleURL
        { (CacheHandler exampleURL (serving 200 pageDoc none)).2 with now := 0 + 3599 }).1 =
          Except.ok t) :=
  C3_cache_population exampleURL (serving 200 pageDoc none)
    { (CacheHandler exampleURL (serving 200 pageDoc none)).2 with now := 0 + 3599 }
    pageDoc 3599 (by decide) (by decide) (by decide) (by decide) (by decide) (by decide)
    (by decide)

/-- C4: when the lookup of `u` reports key not found and the fetch fails (the
transport fails, the status is not 200, or the body does not parse),
`CacheHandler` returns an error and no record, the calls made are the lookup
and the fetch (no write for any key), and the store is unchanged. -/
theorem C4_fetch_failure_no_write (u : GoString) (w : World)
    (hget : (redisGet u w).1 = GetResult.Nil)
    (hfail : (∃ c, w.httpGet u = Except.error c) ∨
      (∃ resp, w.httpGet u = Except.ok resp ∧
        (resp.StatusCode ≠ StatusOK ∨ ∃ c, w.newDocument resp.Body = Except.error c))) :
    (∃ e, (CacheHandler u w).1 = Except.error (HandlerError.fetch e)) ∧
    tagsPtr (CacheHandler u w).1 = none ∧
    (CacheHandler u w).2.log = w.log ++ [Event.Get u] ++ [Event.HttpGet u] ∧
    (CacheHandler u w).2.entries = w.entries := by
  have hf : ∃ e, (FetchHTML u w).1 = Except.error e := by
    unfold FetchHTML
    rcases hfail with ⟨c, hc⟩ | ⟨resp, hr, hs | ⟨c, hc⟩⟩
    · exact ⟨FetchError.get c, by rw [hc]⟩
    · exact ⟨FetchError.status resp.StatusCode resp.Status, by simp [hr, hs]⟩
    · by_cases hs : resp.StatusCode ≠ StatusOK
      · exact ⟨FetchError.status resp.StatusCode resp.Status, by simp [hr, hs]⟩
      · exact ⟨FetchError.parse c, by simp [hr, hs, hc]⟩
  obtain ⟨e, he⟩ := hf
  rw [CacheHandler_fetch_error u w e hget he]
  exact ⟨⟨e, rfl⟩, rfl, rfl, rfl⟩

/-- C4 at a target that answers 404. -/
theorem C4_fetch_failure_no_write_witness :
    (∃ e, (CacheHandler exampleURL (serving 404 pageDoc none)).1 =
      Except.error (HandlerError.fetch e)) ∧
    tagsPtr (CacheHandler exampleURL (serving 404 pageDoc none)).1 = none ∧
    (CacheHandler exampleURL (serving 404 pageDoc none)).2.log =
      (serving 404 pageDoc none).log ++ [Event.Get exampleURL] ++ [Event.HttpGet exampleURL] ∧
    (CacheHandler exampleURL (serving 404 pageDoc none)).2.entries =
      (serving 404 pageDoc none).entries :=
  C4_fetch_failure_no_write exampleURL (serving 404 pageDoc none) (by decide)
    (Or.inr ⟨⟨404, [], []⟩, rfl, Or.inl (by decide)⟩)

/-- C5: when the lookup fails with an error other than key not found,
`CacheHandler` returns an error and no record, the lookup is the only call
made (no `FetchHTML`, no write), and the store is unchanged. -/
theorem C5_store_error_no_fetch (u : GoString) (w : World) (c : GoString)
    (hget : (redisGet u w).1 = GetResult.Err c) :
    (CacheHandler u w).1 = Except.error (HandlerError.cache c) ∧
    tagsPtr (CacheHandler u w).1 = none ∧
    (CacheHandler u w).2.log = w.log ++ [Event.Get u] ∧
    (CacheHandler u w).2.entries = w.entries := by
  rw [CacheHandler_store_error u w c hget]
  exact ⟨rfl, rfl, rfl, rfl⟩

/-- C5 at an unreachable store. -/
theorem C5_store_error_no_fetch_witness :
    (CacheHandler exampleURL unreachable).1 =
      Except.error (HandlerError.cache (str "dial tcp: connection refused")) ∧
    tagsPtr (CacheHandler exampleURL unreachable).1 = none ∧
    (CacheHandler exampleURL unreachable).2.log = unreachable.log ++ [Event.Get exampleURL] ∧
    (CacheHandler exampleURL unreachable).2.entries = unreachable.entries :=
  C5_store_error_no_fetch exampleURL unreachable (str "dial tcp: connection refused")
    (by decide)

/-- C6 as stated fails: a response with status 204, in the 200 range, and a
body that parses yields the status-code error, not a document. -/
theorem C6_status_204_is_rejected :
    (serving 204 pageDoc none).httpGet exampleURL = Except.ok ⟨204, [], []⟩ ∧
    (serving 204 pageDoc none).newDocument [] = Except.ok pageDoc ∧
    (FetchHTML exampleURL (serving 204 pageDoc none)).1 =
      Except.error (FetchError.status 204 []) := by
  decide

/-- C6, amended: for every response whose status code is 200 and whose body
parses as HTML, `FetchHTML` returns the document and no error. -/
theorem C6_status_200_returns_document (u : GoString) (w : World) (resp : Response)
    (doc : Document) (hresp : w.httpGet u = Except.ok resp)
    (hstatus : resp.StatusCode = StatusOK) (hdoc : w.newDocument resp.Body = Except.ok doc) :
    (FetchHTML u w).1 = Except.ok doc := by
  simp [FetchHTML, hresp, hstatus, hdoc]

/-- The amended C6 at a response with status 200. -/
theorem C6_status_200_returns_document_witness :
    (FetchHTML exampleURL (serving 200 pageDoc none)).1 = Except.ok pageDoc :=
  C6_status_200_returns_document exampleURL (serving 200 pageDoc none) ⟨200, [], []⟩ pageDoc
    rfl (by decide) rfl

/-- C7 as stated fails: the record whose title is the byte 0xFF does not
survive `json.Unmarshal` of `json.Marshal`; the title comes back as U+FFFD. -/
theorem C7_roundtrip_fails_on_invalid_utf8 :
    Unmarshal (Marshal latin1Tags) zeroTags = Except.ok ⟨[0xEF, 0xBF, 0xBD], [], [], []⟩ ∧
    Unmarshal (Marshal latin1Tags) zeroTags ≠ Except.ok latin1Tags := by
  decide

/-- C7, amended: for every record whose four fields are valid UTF-8,
`json.Unmarshal` of `json.Marshal` of the record succeeds and yields the
record itself. -/
theorem C7_roundtrip_valid_utf8 (r : OpenGraphTags) (h : ValidTags r) :
    Unmarshal (Marshal r) zeroTags = Except.ok r := by
  rw [Unmarshal_Marshal, coerceTags_of_valid r h]

/-- The amended C7 at the scenario record. -/
theorem C7_roundtrip_valid_utf8_witness :
    ValidTags pageTags ∧ Unmarshal (Marshal pageTags) zeroTags = Except.ok pageTags :=
  ⟨by decide, C7_roundtrip_valid_utf8 pageTags (by decide)⟩

/-- C8: every field of `ParseTagsFromHTML` is the content attribute of the
first `meta` element in document order whose `property` is the field's Open
Graph name, and empty when there is no such element or it has no content
attribute; the function is total, and the document with only
`<meta property="og:title" content="A Page">` yields the title "A Page" and
three empty fields. -/
theorem C8_ParseTagsFromHTML_first_match (doc : Document) :
    ParseTagsFromHTML doc =
      { Title := firstMetaContent doc (str "og:title")
        Desc := firstMetaContent doc (str "og:description")
        Img := firstMetaContent doc (str "og:image")
        URL := firstMetaContent doc (str "og:url") } ∧
    ParseTagsFromHTML pageDoc = ⟨str "A Page", [], [], []⟩ := by
  refine ⟨?_, by decide⟩
  unfold ParseTagsFromHTML
  rw [AttrOr_Find, AttrOr_Find, AttrOr_Find, AttrOr_Find]

/-- C9: for every request whose `url` query parameter is empty or missing,
`previewHandler` responds with status 400 and the body
`{"error":"url is required"}` and leaves the world as it was: no call is made,
so `CacheHandler` is not invoked. -/
theorem C9_empty_url_is_bad_request (query : List (GoString × GoString)) (w : World)
    (hurl : Query query (str "url") = []) :
    previewHandler query w =
      (⟨400, str "\x7b\"error\":\"url is required\"\x7d"⟩, w) := by
  have hbody : MarshalH [(str "error", str "url is required")] =
      str "\x7b\"error\":\"url is required\"\x7d" := by decide
  simp [previewHandler, hurl, hbody, StatusBadRequest]

/-- C9 at a request without the parameter and at one with an empty parameter. -/
theorem C9_empty_url_is_bad_request_witness :
    previewHandler [] unreachable = (⟨400, str "\x7b\"error\":\"url is required\"\x7d"⟩, unreachable) ∧
    previewHandler [(str "url", [])] unreachable =
      (⟨400, str "\x7b\"error\":\"url is required\"\x7d"⟩, unreachable) :=
  ⟨C9_empty_url_is_bad_request [] unreachable (by decide),
    C9_empty_url_is_bad_request [(str "url", [])] unreachable (by decide)⟩

/-- C10 as stated fails: with the store unreachable `CacheHandler` returns an
error, and the body `previewHandler` writes is `null`, not the object with
four empty fields. -/
theorem C10_error_body_is_null_not_empty_record :
    Query [(str "url", exampleURL)] (str "url") ≠ [] ∧
    (CacheHandler exampleURL unreachable).1 =
      Except.error (HandlerError.cache (str "dial tcp: connection refused")) ∧
    (previewHandler [(str "url", exampleURL)] unreachable).1 = ⟨200, str "null"⟩ ∧
    (previewHandler [(str "url", exampleURL)] unreachable).1.body ≠ Marshal zeroTags := by
  decide

/-- C10, amended: for every request with a non-empty `url` parameter for which
`CacheHandler` returns an error, `previewHandler` responds with status 200 and
the body `null`, the encoding of the nil record pointer. -/
theorem C10_error_responds_200_null (query : List (GoString × GoString)) (w : World)
    (e : HandlerError) (hurl : Query query (str "url") ≠ [])
    (herr : (CacheHandler (Query query (str "url")) w).1 = Except.error e) :
    (previewHandler query w).1 = ⟨200, str "null"⟩ := by
  simp [previewHandler, hurl, herr, tagsPtr, MarshalPtr, StatusOK]

/-- The amended C10 at a target that answers 404. -/
theorem C10_error_responds_200_null_witness :
    (previewHandler [(str "url", exampleURL)] (serving 404 pageDoc none)).1 = ⟨200, str "null"⟩ :=
  C10_error_responds_200_null [(str "url", exampleURL)] (serving 404 pageDoc none)
    (HandlerError.fetch (FetchError.status 404 [])) (by decide) (by decide)

end GoExampleApi
